import Mathlib

/-!
Verification of the schema-reconciliation core of the comparison framework
(`comparison_framework/backend/mapping_utils.py` and the aggregation check of
`comparison_framework/backend/report_generator.py`).

The Python code is shallowly embedded: Python dicts keyed by column name become
insertion-ordered association lists, pandas DataFrames become lists of named,
typed columns of cells, floats become rationals, and fallible code returns
`Except`.  Library calls (`difflib.SequenceMatcher.ratio`, `pd.to_numeric`,
`np.isclose`, ...) are modelled by explicit executable definitions, each noted
at its declaration.
-/

namespace CompFw

set_option maxRecDepth 8000

/-! ### Python dict (string keys), insertion ordered -/

/-- A Python `dict` mapping column names to an optional target column name,
with insertion order preserved.  `dictInsert` updates in place when the key is
already present (Python dict assignment), else appends. -/
abbrev Dict := List (String × Option String)

def dictInsert : Dict → String → Option String → Dict
  | [], k, v => [(k, v)]
  | (k', v') :: rest, k, v =>
    if k' = k then (k, v) :: rest else (k', v') :: dictInsert rest k v

/-- Lookup: `none` means the key is absent (`k not in d` in Python). -/
def dictGet : Dict → String → Option (Option String)
  | [], _ => none
  | (k', v') :: rest, k => if k' = k then some v' else dictGet rest k

def dictKeys (m : Dict) : List String := m.map (·.1)

/-- First-match association-list lookup for a Python `Dict[str, str]`. -/
def lookupStr : List (String × String) → String → Option String
  | [], _ => none
  | (k', v') :: rest, k => if k' = k then some v' else lookupStr rest k

/-! ### difflib.SequenceMatcher ratio (string_similarity) -/

/-- Python `str.lower()`: lowercase every character (the model covers the
basic-latin range that `Char.toLower` handles). -/
def strLower (s : String) : String := ⟨s.data.map Char.toLower⟩

/-- Length of the common prefix of two character lists. -/
def lcpLen : List Char → List Char → Nat
  | a :: as, b :: bs => if a = b then lcpLen as bs + 1 else 0
  | _, _ => 0

/-- Model of `difflib.SequenceMatcher.find_longest_match` (no junk, which is
what `SequenceMatcher(None, a, b)` uses for inputs below the autojunk length):
the longest matching contiguous block `(i, j, size)`, ties resolved to the
smallest start in `a`, then the smallest start in `b`. -/
def bestBlock (a b : List Char) : Nat × Nat × Nat :=
  (List.range a.length).foldl
    (fun acc i =>
      (List.range b.length).foldl
        (fun acc2 j =>
          let k := lcpLen (a.drop i) (b.drop j)
          if k > acc2.2.2 then (i, j, k) else acc2)
        acc)
    (0, 0, 0)

/-- Total size of the matching blocks of `difflib`'s recursive block
decomposition.  `fuel` dominates the recursion depth; callers pass
`a.length`, which suffices because each recursive call strictly shortens
`a`. -/
def matchTotal : Nat → List Char → List Char → Nat
  | 0, _, _ => 0
  | fuel + 1, a, b =>
    let ijk := bestBlock a b
    let i := ijk.1
    let j := ijk.2.1
    let k := ijk.2.2
    if k = 0 then 0
    else
      matchTotal fuel (a.take i) (b.take j) + k +
        matchTotal fuel (a.drop (i + k)) (b.drop (j + k))

/-- The ratio `2 * M / T`, with `ratio = 1` on two empty sequences, as in
`difflib._calculate_ratio`. -/
def ratioQ (a b : List Char) : ℚ :=
  let t := a.length + b.length
  if t = 0 then 1 else 2 * (matchTotal a.length a b : ℚ) / (t : ℚ)

/-- Model of `string_similarity(a, b)` of `mapping_utils.py`: the SequenceMatcher ratio
of the two lowercased strings. -/
def string_similarity (a b : String) : ℚ :=
  ratioQ (strLower a).toList (strLower b).toList

/-! ### auto_map_columns -/

/-- One iteration of the exact pass of `auto_map_columns`: scan the target
columns in order for a case-insensitive name match that is not yet claimed;
bind the first one found and mark it claimed. -/
def exactStep (target_cols : List String) (st : Dict × List String) (src : String) :
    Dict × List String :=
  match target_cols.find? (fun t => decide (strLower src = strLower t ∧ t ∉ st.2)) with
  | some t => (dictInsert st.1 src (some t), t :: st.2)
  | none => st

/-- The exact pass: fold `exactStep` over the source columns, starting from the
empty mapping and no claimed targets. -/
def exactPass (source_cols target_cols : List String) : Dict × List String :=
  source_cols.foldl (exactStep target_cols) ([], [])

/-- The inner loop of the fuzzy pass: scan the target columns keeping the best
`(best_match, best_score)` seen so far, skipping claimed targets, updating only
on a strictly larger score.  The accumulator starts at `(none, threshold)`. -/
def fuzzyScan (sim : String → String → ℚ) (src : String) (used : List String) :
    List String → Option String × ℚ → Option String × ℚ
  | [], acc => acc
  | t :: ts, acc =>
    if t ∈ used then fuzzyScan sim src used ts acc
    else if sim src t > acc.2 then fuzzyScan sim src used ts (some t, sim src t)
    else fuzzyScan sim src used ts acc

/-- One iteration of the fuzzy pass.  Note the Python `if best_match:` truthiness
test: a best match that is the empty string is treated like no match. -/
def fuzzyStep (sim : String → String → ℚ) (target_cols : List String) (threshold : ℚ)
    (st : Dict × List String) (src : String) : Dict × List String :=
  match fuzzyScan sim src st.2 target_cols (none, threshold) with
  | (some t, _) =>
    if t = "" then (dictInsert st.1 src none, st.2)
    else (dictInsert st.1 src (some t), t :: st.2)
  | (none, _) => (dictInsert st.1 src none, st.2)

/-- The source columns still unmapped after the exact pass, in source order
(`[col for col in source_cols if col not in mapping]`). -/
def unmappedSources (source_cols target_cols : List String) : List String :=
  source_cols.filter (fun c => (dictGet (exactPass source_cols target_cols).1 c).isNone)

/-- The final `(mapping, used_targets)` state of `auto_map_columns`,
generalized over the similarity function: exact pass, then the fuzzy pass over
the source columns still absent from the mapping. -/
def autoMapState (sim : String → String → ℚ) (source_cols target_cols : List String)
    (threshold : ℚ) : Dict × List String :=
  (unmappedSources source_cols target_cols).foldl (fuzzyStep sim target_cols threshold)
    (exactPass source_cols target_cols)

def autoMapWith (sim : String → String → ℚ) (source_cols target_cols : List String)
    (threshold : ℚ) : Dict :=
  (autoMapState sim source_cols target_cols threshold).1

/-- Model of `auto_map_columns(source_cols, target_cols, threshold)` of
`mapping_utils.py` (the Python default threshold is `0.8`). -/
def auto_map_columns (source_cols target_cols : List String) (threshold : ℚ) : Dict :=
  autoMapWith string_similarity source_cols target_cols threshold

/-! ### are_dtypes_compatible -/

def numeric_aliases : List String :=
  ["int32", "int64", "float32", "float64", "int", "float",
   "integer", "numeric", "decimal", "double", "real"]

def string_aliases : List String :=
  ["object", "string", "str", "varchar", "nvarchar", "char",
   "nchar", "text", "ntext"]

def datetime_aliases : List String :=
  ["datetime64", "datetime64[ns]", "datetime", "timestamp", "date"]

def boolean_aliases : List String :=
  ["bool", "boolean", "bit"]

def type_groups : List (List String) :=
  [numeric_aliases, string_aliases, datetime_aliases, boolean_aliases]

/-- Python `t in s` on strings: substring containment. -/
def isSubstring (needle hay : String) : Bool :=
  hay.toList.tails.any (fun suf => needle.toList.isPrefixOf suf)

/-- Does the (lowercased) dtype string contain any alias of the group? -/
def hasAliasIn (g : List String) (d : String) : Bool :=
  g.any (fun t => isSubstring t d)

/-- Model of `are_dtypes_compatible(dtype1, dtype2)` of `mapping_utils.py`.  The
sequential early-`return True` structure of the Python code is the disjunction
of its four tests: same compatibility group, the int/float special case, a
string alias on either side, exact lowercased equality. -/
def are_dtypes_compatible (dtype1 dtype2 : String) : Bool :=
  let d1 := strLower dtype1
  let d2 := strLower dtype2
  type_groups.any (fun g => hasAliasIn g d1 && hasAliasIn g d2)
  || ((isSubstring "int" d1 || isSubstring "float" d1)
       && (isSubstring "int" d2 || isSubstring "float" d2))
  || (hasAliasIn string_aliases d1 || hasAliasIn string_aliases d2)
  || (d1 == d2)

/-- A dtype string containing no alias of any known group (the "unknown"
classification of the spec). -/
def noAliasAtAll (d : String) : Bool :=
  !(type_groups.any (fun g => hasAliasIn g (strLower d)))

/-! ### DataFrames -/

/-- A cell of a DataFrame: a number, a string, or a null marker (NaN/None). -/
inductive Cell where
  | num (q : ℚ)
  | str (s : String)
  | null
deriving DecidableEq, Repr

structure DFColumn where
  name : String
  dtype : String
  values : List Cell
deriving DecidableEq, Repr

/-- A pandas DataFrame: ordered named columns of uniform declared dtype.  All
columns of a well-formed frame have the same length. -/
structure DataFrame where
  cols : List DFColumn
deriving DecidableEq, Repr

/-- Lookup `df[c]`: the first column named `c`, if any (`none` models `KeyError`). -/
def getColumn (df : DataFrame) (c : String) : Option DFColumn :=
  df.cols.find? (fun col => col.name == c)

def colValsD (df : DataFrame) (c : String) : List Cell :=
  ((getColumn df c).map (·.values)).getD []

def colDtypeD (df : DataFrame) (c : String) : String :=
  ((getColumn df c).map (·.dtype)).getD ""

/-- Python `len(df)`: the row count, read off the first column. -/
def nRows (df : DataFrame) : Nat :=
  match df.cols with
  | [] => 0
  | c :: _ => c.values.length

/-- Truncate every column of a frame to its first `n` values (`df.head(n)`
applied columnwise). -/
def takeRows (n : Nat) (df : DataFrame) : DataFrame :=
  ⟨df.cols.map (fun c => ⟨c.name, c.dtype, c.values.take n⟩)⟩

/-! ### validate_join_columns -/

/-- Scan the given columns in order; report the first one whose values contain
a null, or an error when a column is absent (pandas `KeyError`). -/
def findNullCol (df : DataFrame) : List String → Except String (Option String)
  | [] => .ok none
  | c :: cs =>
    match getColumn df c with
    | none => .error ("KeyError: " ++ c)
    | some col =>
      if Cell.null ∈ col.values then .ok (some c) else findNullCol df cs

/-- The per-row tuples of the selected columns, in row order; the row count is
`len(df)` as in `df.duplicated(subset=cols)`. -/
def joinTuples (df : DataFrame) (cols : List String) : List (List Cell) :=
  (List.range (nRows df)).map
    (fun i => cols.map (fun c => (colValsD df c).getD i Cell.null))

/-- Model of `df.duplicated(subset).any()`: some tuple occurs twice. -/
def hasDup : List (List Cell) → Bool
  | [] => false
  | x :: xs => (decide (x ∈ xs)) || hasDup xs

/-- Model of `validate_join_columns(mapping, join_columns, source_df, target_df)` of
`mapping_utils.py`.  Returns `(is_valid, message)`; `Except.error` models the
re-raised pandas exception on a missing column. -/
def validate_join_columns (mapping : List (String × String)) (join_columns : List String)
    (source_df target_df : DataFrame) : Except String (Bool × String) :=
  if join_columns = [] then .ok (false, "No join columns selected")
  else
    match join_columns.find? (fun c => (lookupStr mapping c).isNone) with
    | some c => .ok (false, "Join column " ++ c ++ " not found in column mapping")
    | none =>
      let target_join_cols := join_columns.map (fun c => (lookupStr mapping c).getD "")
      match findNullCol source_df join_columns with
      | .error e => .error e
      | .ok (some c) => .ok (false, "Source join column " ++ c ++ " contains null values")
      | .ok none =>
        match findNullCol target_df target_join_cols with
        | .error e => .error e
        | .ok (some c) => .ok (false, "Target join column " ++ c ++ " contains null values")
        | .ok none =>
          if hasDup (joinTuples source_df join_columns)
              || hasDup (joinTuples target_df target_join_cols) then
            .ok (false, "Selected join columns contain duplicate combinations")
          else .ok (true, "Join columns validated successfully")

/-! ### validate_mapping -/

/-- The mapping entries surviving `{k: v for k, v in mapping.items() if v and
not pd.isna(v)}`: a `None` or empty-string target is discarded. -/
def survivingPairs (mapping : Dict) : List (String × String) :=
  mapping.filterMap (fun kv =>
    match kv.2 with
    | some v => if v = "" then none else some (kv.1, v)
    | none => none)

/-- Model of the sample-conversion try of `validate_mapping`: does
`pd.to_numeric` accept the cell (numbers and nulls pass; strings must be
numeric literals, modelled as nonempty digit strings)? -/
def cellNumericOk : Cell → Bool
  | .num _ => true
  | .null => true
  | .str s => !s.isEmpty && s.toList.all (·.isDigit)

/-- Model of `pd.to_datetime` acceptance of a cell: numbers and nulls pass;
strings must look like dates (modelled as `YYYY-MM-DD` shape: ten characters,
digits with dashes at positions 4 and 7). -/
def cellDatetimeOk : Cell → Bool
  | .num _ => true
  | .null => true
  | .str s =>
    let cs := s.toList
    decide (cs.length = 10) &&
      (List.range 10).all (fun i =>
        if i = 4 ∨ i = 7 then decide (cs.getD i ' ' = '-')
        else (cs.getD i ' ').isDigit)

/-- The try-block of `validate_mapping` for a desired type on a sample:
`int64`/`float64` run `pd.to_numeric`, `datetime64[ns]` runs `pd.to_datetime`,
`bool` runs `astype(bool)` (which does not raise on these cells), and any other
desired type hits no conversion branch, so the try always succeeds. -/
def can_convert (desired : String) (sample : List Cell) : Bool :=
  if desired = "int64" then sample.all cellNumericOk
  else if desired = "float64" then sample.all cellNumericOk
  else if desired = "datetime64[ns]" then sample.all cellDatetimeOk
  else true

/-- The per-pair loop of `validate_mapping`: read both declared dtypes
(raising on a missing column), then either run the sample-conversion check on
the first 100 source values (when a type mapping covers the source column) or
the dtype-compatibility check. -/
def checkPairs (source_df target_df : DataFrame) (type_mapping : Option (List (String × String))) :
    List (String × String) → Except String (Bool × String)
  | [] => .ok (true, "Mapping validated successfully")
  | (src, tgt) :: rest =>
    match getColumn source_df src with
    | none => .error ("KeyError: " ++ src)
    | some scol =>
      match getColumn target_df tgt with
      | none => .error ("KeyError: " ++ tgt)
      | some tcol =>
        match type_mapping.bind (fun tml => lookupStr tml src) with
        | some desired =>
          if can_convert desired (scol.values.take 100) then
            checkPairs source_df target_df type_mapping rest
          else .ok (false, "Cannot convert " ++ src ++ " to type " ++ desired)
        | none =>
          if are_dtypes_compatible scol.dtype tcol.dtype then
            checkPairs source_df target_df type_mapping rest
          else
            .ok (false, "Incompatible data types for " ++ src ++ " (" ++ scol.dtype
              ++ ") and " ++ tgt ++ " (" ++ tcol.dtype ++ ")")

/-- Model of `validate_mapping(source_df, target_df, mapping, type_mapping)` of
`mapping_utils.py`. -/
def validate_mapping (source_df target_df : DataFrame) (mapping : Dict)
    (type_mapping : Option (List (String × String))) : Except String (Bool × String) :=
  let valid := survivingPairs mapping
  if valid = [] then .ok (false, "No valid column mappings found")
  else
    let missing_target := (valid.map (·.2)).filter (fun c => (getColumn target_df c).isNone)
    if missing_target = [] then checkPairs source_df target_df type_mapping valid
    else .ok (false, "Target columns not found: " ++ String.intercalate ", " missing_target)

/-- The failure message of the dtype-incompatibility branch, for stating the
first-failure property. -/
def incompatible_msg (source_df target_df : DataFrame) (p : String × String) : String :=
  "Incompatible data types for " ++ p.1 ++ " (" ++ colDtypeD source_df p.1
    ++ ") and " ++ p.2 ++ " (" ++ colDtypeD target_df p.2 ++ ")"

/-! ### The aggregation check of report_generator.py -/

/-- The numpy numeric dtypes selected by `select_dtypes(include=[np.number])`. -/
def numeric_dtypes : List String :=
  ["int8", "int16", "int32", "int64", "uint8", "uint16", "uint32", "uint64",
   "float16", "float32", "float64"]

def dtypeIsNumeric (d : String) : Bool := decide (d ∈ numeric_dtypes)

def cellNumD : Cell → ℚ
  | .num q => q
  | _ => 0

/-- Model of `df[c].sum()`: the sum of the column's numeric values over all rows
(nulls contribute nothing, as with pandas `skipna`). -/
def colSum (df : DataFrame) (c : String) : ℚ :=
  ((colValsD df c).map cellNumD).sum

/-- Model of `np.isclose(a, b, rtol=1e-05)` on exact rationals: numpy's rule
`|a - b| <= atol + rtol * |b|` with the default `atol = 1e-8`; the relative
part is measured against the second operand. -/
def np_isclose (a b : ℚ) : Bool :=
  decide (|a - b| ≤ 1 / 100000000 + (1 / 100000) * |b|)

/-- One row of the AggregationCheck tab. -/
structure AggRow where
  sourceColumn : String
  targetColumn : String
  sourceSum : ℚ
  targetSum : ℚ
  result : String
deriving DecidableEq, Repr

/-- The result rows built by `_generate_aggregation_check` of
`report_generator.py` (the Excel rendering around them is omitted): for every
numeric source column that appears as a `Source Column` of the mapping table,
sum both sides over all rows and compare with `np.isclose`. -/
def generate_aggregation_check (source_df target_df : DataFrame)
    (mapping_rows : List (String × String)) : List AggRow :=
  (source_df.cols.filter (fun c => dtypeIsNumeric c.dtype)).filterMap (fun c =>
    match lookupStr mapping_rows c.name with
    | some tgt =>
      some ⟨c.name, tgt, colSum source_df c.name, colSum target_df tgt,
        if np_isclose (colSum source_df c.name) (colSum target_df tgt)
        then "PASS" else "FAIL"⟩
    | none => none)

/-- Modelled from the spec: the aggregate tolerance rule as the specification
words it — relative tolerance `1e-5` measured against the larger-magnitude
operand, with an absolute-tolerance fallback of `1e-9` when a value is compared
against exactly zero.  Stated only to compare the spec's rule with the code's
`np.isclose` semantics. -/
def spec_aggregate_pass (s t : ℚ) : Bool :=
  if s = 0 ∨ t = 0 then decide (|s - t| ≤ 1 / 1000000000)
  else decide (|s - t| ≤ (1 / 100000) * max |s| |t|)

/-! ### Invariants used by the proofs -/

/-- The state invariant of `auto_map_columns`: every target bound in the
mapping has been recorded as used, and no target is bound by two distinct
source keys. -/
def MappedInv (m : Dict) (u : List String) : Prop :=
  (∀ k t, dictGet m k = some (some t) → t ∈ u) ∧
  (∀ k₁ k₂ t, k₁ ≠ k₂ → dictGet m k₁ = some (some t) →
    dictGet m k₂ = some (some t) → False)

/-! ## Dictionary lemmas -/

theorem dictGet_insert_self : ∀ (m : Dict) (k : String) (v : Option String),
    dictGet (dictInsert m k v) k = some v
  | [], k, v => by simp [dictInsert, dictGet]
  | (k₀, v₀) :: rest, k, v => by
    by_cases h : k₀ = k
    · simp [dictInsert, h, dictGet]
    · simp [dictInsert, h, dictGet, dictGet_insert_self rest k v]

theorem dictGet_insert_ne : ∀ (m : Dict) (k k' : String) (v : Option String),
    k' ≠ k → dictGet (dictInsert m k v) k' = dictGet m k'
  | [], k, k', v, h => by simp [dictInsert, dictGet, Ne.symm h]
  | (k₀, v₀) :: rest, k, k', v, h => by
    by_cases h0 : k₀ = k
    · subst h0
      simp [dictInsert, dictGet, Ne.symm h]
    · by_cases h1 : k₀ = k'
      · subst h1
        simp [dictInsert, h0, dictGet]
      · simp [dictInsert, h0, dictGet, h1, dictGet_insert_ne rest k k' v h]

theorem dictKeys_cons (k₀ : String) (v₀ : Option String) (rest : Dict) :
    dictKeys ((k₀, v₀) :: rest) = k₀ :: dictKeys rest := rfl

/-- A found element satisfies the predicate (stated with
explicit arguments to sidestep higher-order unification). -/
theorem find?_pred_true {α : Type} : ∀ (l : List α) (p : α → Bool) (a : α),
    l.find? p = some a → p a = true
  | [], _, _, h => by simp [List.find?] at h
  | x :: l, p, a, h => by
    by_cases hx : p x = true
    · rw [List.find?_cons_of_pos _ hx] at h
      obtain rfl : x = a := Option.some.inj h
      exact hx
    · rw [List.find?_cons_of_neg _ (by simpa using hx)] at h
      exact find?_pred_true l p a h

theorem find?_cons_pos {α : Type} (p : α → Bool) (a : α) (l : List α) (h : p a = true) :
    (a :: l).find? p = some a := by
  simp [List.find?, h]

theorem find?_cons_neg {α : Type} (p : α → Bool) (a : α) (l : List α) (h : p a = false) :
    (a :: l).find? p = l.find? p := by
  simp [List.find?, h]

theorem dictKeys_insert_of_mem : ∀ (m : Dict) (k : String) (v : Option String),
    k ∈ dictKeys m → dictKeys (dictInsert m k v) = dictKeys m
  | [], k, v, h => by simp [dictKeys] at h
  | (k₀, v₀) :: rest, k, v, h => by
    by_cases h0 : k₀ = k
    · simp [dictInsert, h0, dictKeys_cons]
    · have hk : k ∈ dictKeys rest := by
        rw [dictKeys_cons] at h
        rcases List.mem_cons.1 h with rfl | hm
        · exact absurd rfl h0
        · exact hm
      simp [dictInsert, h0, dictKeys_cons, dictKeys_insert_of_mem rest k v hk]

theorem dictKeys_insert_of_not_mem : ∀ (m : Dict) (k : String) (v : Option String),
    k ∉ dictKeys m → dictKeys (dictInsert m k v) = dictKeys m ++ [k]
  | [], k, v, _ => by simp [dictInsert, dictKeys]
  | (k₀, v₀) :: rest, k, v, h => by
    rw [dictKeys_cons] at h
    have h0 : k₀ ≠ k := fun e => h (e ▸ List.mem_cons_self _ _)
    have hk : k ∉ dictKeys rest := fun hm => h (List.mem_cons_of_mem _ hm)
    simp [dictInsert, h0, dictKeys_cons, dictKeys_insert_of_not_mem rest k v hk]

theorem mem_dictKeys_insert (m : Dict) (k : String) (v : Option String) (s : String) :
    s ∈ dictKeys (dictInsert m k v) ↔ s ∈ dictKeys m ∨ s = k := by
  by_cases h : k ∈ dictKeys m
  · rw [dictKeys_insert_of_mem m k v h]
    constructor
    · exact Or.inl
    · rintro (hs | rfl)
      · exact hs
      · exact h
  · rw [dictKeys_insert_of_not_mem m k v h]
    simp

theorem nodup_dictKeys_insert (m : Dict) (k : String) (v : Option String)
    (h : (dictKeys m).Nodup) : (dictKeys (dictInsert m k v)).Nodup := by
  by_cases hk : k ∈ dictKeys m
  · rwa [dictKeys_insert_of_mem m k v hk]
  · rw [dictKeys_insert_of_not_mem m k v hk]
    simpa [List.nodup_append] using ⟨h, hk⟩

theorem dictGet_eq_none_iff : ∀ (m : Dict) (k : String),
    dictGet m k = none ↔ k ∉ dictKeys m
  | [], k => by simp [dictGet, dictKeys]
  | (k₀, v₀) :: rest, k => by
    rw [dictKeys_cons]
    by_cases h0 : k₀ = k
    · subst h0
      simp [dictGet]
    · simp [dictGet, h0, dictGet_eq_none_iff rest k, Ne.symm h0]

/-! ## The invariant is preserved by both passes -/

theorem mappedInv_nil : MappedInv [] [] := by
  constructor
  · intro k t h
    simp [dictGet] at h
  · intro k₁ k₂ t _ h
    simp [dictGet] at h

theorem mappedInv_insert_some {m : Dict} {u : List String} {t : String}
    (h : MappedInv m u) (ht : t ∉ u) (k : String) :
    MappedInv (dictInsert m k (some t)) (t :: u) := by
  constructor
  · intro k' t' hget
    by_cases hk : k' = k
    · subst hk
      rw [dictGet_insert_self] at hget
      obtain rfl : t = t' := by simpa using hget
      exact List.mem_cons_self _ _
    · rw [dictGet_insert_ne m k k' (some t) hk] at hget
      exact List.mem_cons_of_mem _ (h.1 k' t' hget)
  · intro k₁ k₂ t' hne h₁ h₂
    by_cases hk₁ : k₁ = k
    · subst hk₁
      rw [dictGet_insert_self] at h₁
      obtain rfl : t = t' := by simpa using h₁
      rw [dictGet_insert_ne m k₁ k₂ (some t) (Ne.symm hne)] at h₂
      exact ht (h.1 k₂ t h₂)
    · by_cases hk₂ : k₂ = k
      · subst hk₂
        rw [dictGet_insert_self] at h₂
        obtain rfl : t = t' := by simpa using h₂
        rw [dictGet_insert_ne m k₂ k₁ (some t) hk₁] at h₁
        exact ht (h.1 k₁ t h₁)
      · rw [dictGet_insert_ne m k k₁ (some t) hk₁] at h₁
        rw [dictGet_insert_ne m k k₂ (some t) hk₂] at h₂
        exact h.2 k₁ k₂ t' hne h₁ h₂

theorem mappedInv_insert_none {m : Dict} {u : List String}
    (h : MappedInv m u) (k : String) : MappedInv (dictInsert m k none) u := by
  constructor
  · intro k' t' hget
    by_cases hk : k' = k
    · subst hk
      rw [dictGet_insert_self] at hget
      simp at hget
    · rw [dictGet_insert_ne m k k' none hk] at hget
      exact h.1 k' t' hget
  · intro k₁ k₂ t' hne h₁ h₂
    by_cases hk₁ : k₁ = k
    · subst hk₁
      rw [dictGet_insert_self] at h₁
      simp at h₁
    · by_cases hk₂ : k₂ = k
      · subst hk₂
        rw [dictGet_insert_self] at h₂
        simp at h₂
      · rw [dictGet_insert_ne m k k₁ none hk₁] at h₁
        rw [dictGet_insert_ne m k k₂ none hk₂] at h₂
        exact h.2 k₁ k₂ t' hne h₁ h₂

theorem mappedInv_exactStep (tgts : List String) (st : Dict × List String) (src : String)
    (h : MappedInv st.1 st.2) :
    MappedInv (exactStep tgts st src).1 (exactStep tgts st src).2 := by
  unfold exactStep
  cases hf : tgts.find? (fun t => decide (strLower src = strLower t ∧ t ∉ st.2)) with
  | none => exact h
  | some t =>
    have hp := find?_pred_true tgts _ t hf
    have hp' : strLower src = strLower t ∧ t ∉ st.2 := by simpa using hp
    exact mappedInv_insert_some h hp'.2 src

/-- The accumulator analysis of the fuzzy scan: either nothing beat the
starting score and the accumulator is returned unchanged, or the result is the
first unclaimed target achieving the maximal score, that score strictly
beating the starting one. -/
theorem fuzzyScan_spec (sim : String → String → ℚ) (src : String) (used : List String) :
    ∀ (ts : List String) (b : Option String) (s : ℚ),
      (fuzzyScan sim src used ts (b, s) = (b, s) ∧ ∀ t ∈ ts, t ∉ used → sim src t ≤ s)
      ∨ (∃ l₁ t l₂, ts = l₁ ++ t :: l₂ ∧ t ∉ used ∧
          fuzzyScan sim src used ts (b, s) = (some t, sim src t) ∧ sim src t > s ∧
          (∀ x ∈ l₁, x ∉ used → sim src x < sim src t) ∧
          (∀ x ∈ l₂, x ∉ used → sim src x ≤ sim src t))
  | [], b, s => Or.inl ⟨rfl, by simp⟩
  | t :: ts, b, s => by
    by_cases hu : t ∈ used
    · rcases fuzzyScan_spec sim src used ts b s with ⟨heq, hall⟩ |
        ⟨l₁, t', l₂, hsplit, hun, heq, hgt, h₁, h₂⟩
      · left
        refine ⟨by simp [fuzzyScan, hu, heq], ?_⟩
        intro x hx hxu
        rcases List.mem_cons.1 hx with rfl | hx
        · exact absurd hu hxu
        · exact hall x hx hxu
      · right
        refine ⟨t :: l₁, t', l₂, by rw [hsplit, List.cons_append],
          hun, by simp [fuzzyScan, hu, heq], hgt, ?_, h₂⟩
        intro x hx hxu
        rcases List.mem_cons.1 hx with rfl | hx
        · exact absurd hu hxu
        · exact h₁ x hx hxu
    · by_cases hgt : sim src t > s
      · rcases fuzzyScan_spec sim src used ts (some t) (sim src t) with ⟨heq, hall⟩ |
          ⟨l₁, t', l₂, hsplit, hun, heq, hgt', h₁, h₂⟩
        · right
          exact ⟨[], t, ts, rfl, hu, by simp [fuzzyScan, hu, hgt, heq], hgt,
            by simp, hall⟩
        · right
          refine ⟨t :: l₁, t', l₂, by rw [hsplit, List.cons_append], hun,
            by simp [fuzzyScan, hu, hgt, heq], lt_trans hgt hgt', ?_, h₂⟩
          intro x hx hxu
          rcases List.mem_cons.1 hx with rfl | hx
          · exact hgt'
          · exact h₁ x hx hxu
      · push_neg at hgt
        rcases fuzzyScan_spec sim src used ts b s with ⟨heq, hall⟩ |
          ⟨l₁, t', l₂, hsplit, hun, heq, hgt', h₁, h₂⟩
        · left
          refine ⟨by simp [fuzzyScan, hu, not_lt.2 hgt, heq], ?_⟩
          intro x hx hxu
          rcases List.mem_cons.1 hx with rfl | hx
          · exact hgt
          · exact hall x hx hxu
        · right
          refine ⟨t :: l₁, t', l₂, by rw [hsplit, List.cons_append], hun,
            by simp [fuzzyScan, hu, not_lt.2 hgt, heq], hgt', ?_, h₂⟩
          intro x hx hxu
          rcases List.mem_cons.1 hx with rfl | hx
          · exact lt_of_le_of_lt hgt hgt'
          · exact h₁ x hx hxu

theorem mappedInv_fuzzyStep (sim : String → String → ℚ) (tgts : List String) (thr : ℚ)
    (st : Dict × List String) (src : String) (h : MappedInv st.1 st.2) :
    MappedInv (fuzzyStep sim tgts thr st src).1 (fuzzyStep sim tgts thr st src).2 := by
  unfold fuzzyStep
  rcases hscan : fuzzyScan sim src st.2 tgts (none, thr) with ⟨b, s⟩
  rcases fuzzyScan_spec sim src st.2 tgts none thr with ⟨heq, _⟩ |
    ⟨l₁, t', l₂, _, hun, heq, _, _, _⟩
  · rw [hscan] at heq
    obtain ⟨rfl, rfl⟩ : b = none ∧ s = thr := by simpa using heq
    exact mappedInv_insert_none h src
  · rw [hscan] at heq
    obtain ⟨rfl, rfl⟩ : b = some t' ∧ s = sim src t' := by simpa using heq
    by_cases he : t' = ""
    · simpa [he] using mappedInv_insert_none h src
    · simpa [he] using mappedInv_insert_some h hun src

theorem foldl_mappedInv {step : Dict × List String → String → Dict × List String}
    (hstep : ∀ st a, MappedInv st.1 st.2 → MappedInv (step st a).1 (step st a).2) :
    ∀ (l : List String) (st : Dict × List String), MappedInv st.1 st.2 →
      MappedInv ((l.foldl step st).1) ((l.foldl step st).2)
  | [], _, h => h
  | a :: l, st, h => foldl_mappedInv hstep l (step st a) (hstep st a h)

theorem autoMapState_inv (sim : String → String → ℚ) (srcs tgts : List String) (thr : ℚ) :
    MappedInv (autoMapState sim srcs tgts thr).1 (autoMapState sim srcs tgts thr).2 := by
  have hex : MappedInv (exactPass srcs tgts).1 (exactPass srcs tgts).2 :=
    foldl_mappedInv (mappedInv_exactStep tgts) srcs ([], []) mappedInv_nil
  exact foldl_mappedInv (mappedInv_fuzzyStep sim tgts thr) _ _ hex

/-! ## C1 -/

/-- C1: `auto_map_columns` is injective on the mapped-to side — for every list
of source columns, every list of target columns and every threshold, two
distinct source columns that are both mapped to a (non-null) target column are
mapped to different targets. -/
theorem auto_map_columns_injective (srcs tgts : List String) (thr : ℚ)
    (s₁ s₂ t₁ t₂ : String) (hne : s₁ ≠ s₂)
    (h₁ : dictGet (auto_map_columns srcs tgts thr) s₁ = some (some t₁))
    (h₂ : dictGet (auto_map_columns srcs tgts thr) s₂ = some (some t₂)) :
    t₁ ≠ t₂ := by
  intro he
  subst he
  have hinv := autoMapState_inv string_similarity srcs tgts thr
  exact hinv.2 s₁ s₂ t₁ hne h₁ h₂

/-- Witness for C1 at a concrete run: mapping `[a, b]` onto `[a, b]` binds the
two sources to the two distinct targets. -/
theorem auto_map_columns_injective_witness : ("a" : String) ≠ "b" ∧ ("a" : String) ≠ "b" :=
  ⟨by decide,
    auto_map_columns_injective ["a", "b"] ["a", "b"] (4 / 5) "a" "b" "a" "b"
      (by decide) (by with_unfolding_all decide) (by with_unfolding_all decide)⟩

/-! ## Locality lemmas for the two passes -/

/-- A generic `find?` construction lemma: the first element of a split whose
prefix all fails the predicate is found. -/
theorem find?_of_split {α : Type} : ∀ (l₁ : List α) (a : α) (l₂ : List α) (p : α → Bool),
    p a = true → (∀ x ∈ l₁, p x = false) → (l₁ ++ a :: l₂).find? p = some a
  | [], a, l₂, p, hp, _ => by simp [List.find?_cons_of_pos _ hp]
  | x :: l₁, a, l₂, p, hp, hl => by
    rw [List.cons_append, List.find?_cons_of_neg _ (by simp [hl x (List.mem_cons_self x l₁)])]
    exact find?_of_split l₁ a l₂ p hp (fun y hy => hl y (List.mem_cons_of_mem x hy))

theorem fuzzyStep_get_other (sim : String → String → ℚ) (tgts : List String) (thr : ℚ)
    (st : Dict × List String) (a src : String) (h : src ≠ a) :
    dictGet (fuzzyStep sim tgts thr st a).1 src = dictGet st.1 src := by
  unfold fuzzyStep
  rcases hscan : fuzzyScan sim a st.2 tgts (none, thr) with ⟨b, sc⟩
  cases b with
  | none => simp [dictGet_insert_ne st.1 a src none h]
  | some t =>
    by_cases he : t = ""
    · simp [he, dictGet_insert_ne st.1 a src none h]
    · simp [he, dictGet_insert_ne st.1 a src (some t) h]

theorem fuzzy_fold_get_not_mem (sim : String → String → ℚ) (tgts : List String) (thr : ℚ) :
    ∀ (l : List String) (st : Dict × List String) (src : String), src ∉ l →
      dictGet ((l.foldl (fuzzyStep sim tgts thr) st).1) src = dictGet st.1 src
  | [], _, _, _ => rfl
  | a :: l, st, src, h => by
    have ha : src ≠ a := fun e => h (e ▸ List.mem_cons_self a l)
    have hl : src ∉ l := fun hm => h (List.mem_cons_of_mem a hm)
    rw [List.foldl_cons, fuzzy_fold_get_not_mem sim tgts thr l _ src hl,
      fuzzyStep_get_other sim tgts thr st a src ha]

theorem fuzzyStep_get_self_none (sim : String → String → ℚ) (tgts : List String) (thr : ℚ)
    (st : Dict × List String) (src : String)
    (h : ∀ t ∈ tgts, t ∉ st.2 → sim src t ≤ thr) :
    dictGet (fuzzyStep sim tgts thr st src).1 src = some none := by
  unfold fuzzyStep
  rcases fuzzyScan_spec sim src st.2 tgts none thr with ⟨heq, _⟩ |
    ⟨l₁, t, l₂, hsplit, hun, heq, hgt, _, _⟩
  · rw [heq]
    simp [dictGet_insert_self]
  · exfalso
    have hle : sim src t ≤ thr :=
      h t (by rw [hsplit]; exact List.mem_append_right _ (List.mem_cons_self t l₂)) hun
    exact absurd hgt (not_lt.2 hle)

theorem fuzzy_fold_get_none (sim : String → String → ℚ) (tgts : List String) (thr : ℚ) :
    ∀ (l : List String) (st : Dict × List String) (src : String), src ∈ l →
      (∀ t ∈ tgts, sim src t ≤ thr) →
      dictGet ((l.foldl (fuzzyStep sim tgts thr) st).1) src = some none
  | [], _, src, h, _ => absurd h (List.not_mem_nil src)
  | a :: l, st, src, h, hall => by
    by_cases hm : src ∈ l
    · rw [List.foldl_cons]
      exact fuzzy_fold_get_none sim tgts thr l _ src hm hall
    · obtain rfl : src = a := by
        rcases List.mem_cons.1 h with rfl | hx
        · rfl
        · exact absurd hx hm
      rw [List.foldl_cons, fuzzy_fold_get_not_mem sim tgts thr l _ src hm]
      exact fuzzyStep_get_self_none sim tgts thr st src (fun t ht _ => hall t ht)

theorem fuzzyStep_get_self_some (sim : String → String → ℚ) (tgts : List String) (thr : ℚ)
    (st : Dict × List String) (src t : String)
    (h : dictGet (fuzzyStep sim tgts thr st src).1 src = some (some t)) :
    t ∉ st.2 ∧ sim src t > thr ∧ ∃ l₁ l₂, tgts = l₁ ++ t :: l₂ ∧
      (∀ x ∈ l₁, x ∉ st.2 → sim src x < sim src t) ∧
      (∀ x ∈ l₂, x ∉ st.2 → sim src x ≤ sim src t) := by
  unfold fuzzyStep at h
  rcases fuzzyScan_spec sim src st.2 tgts none thr with ⟨heq, _⟩ |
    ⟨l₁, t', l₂, hsplit, hun, heq, hgt, h₁, h₂⟩
  · rw [heq] at h
    simp [dictGet_insert_self] at h
  · rw [heq] at h
    by_cases he : t' = ""
    · simp [he, dictGet_insert_self] at h
    · simp only [he, if_false, dictGet_insert_self] at h
      obtain rfl : t' = t := by simpa using h
      exact ⟨hun, hgt, l₁, l₂, hsplit, h₁, h₂⟩

/-! ## C2 -/

/-- C2: the fuzzy pass of `auto_map_columns` binds a source column left
unmapped by the exact pass to an unclaimed target only when their similarity
score strictly exceeds the threshold, the bound target being the first
unclaimed target (in target-column order) achieving the best score; and when
no unclaimed target scores above the threshold — in particular when no target
at all does — the source column is mapped to null. -/
theorem auto_map_fuzzy_pass_spec (tgts : List String) (thr : ℚ) (m : Dict)
    (u : List String) (src : String) :
    (∀ t, dictGet (fuzzyStep string_similarity tgts thr (m, u) src).1 src = some (some t) →
       t ∉ u ∧ string_similarity src t > thr ∧ ∃ l₁ l₂, tgts = l₁ ++ t :: l₂ ∧
         (∀ x ∈ l₁, x ∉ u → string_similarity src x < string_similarity src t) ∧
         (∀ x ∈ l₂, x ∉ u → string_similarity src x ≤ string_similarity src t))
    ∧ ((∀ t ∈ tgts, t ∉ u → string_similarity src t ≤ thr) →
        dictGet (fuzzyStep string_similarity tgts thr (m, u) src).1 src = some none)
    ∧ (∀ (srcs : List String) (src₀ : String), src₀ ∈ srcs →
        dictGet (exactPass srcs tgts).1 src₀ = none →
        (∀ t ∈ tgts, string_similarity src₀ t ≤ thr) →
        dictGet (auto_map_columns srcs tgts thr) src₀ = some none) := by
  refine ⟨?_, ?_, ?_⟩
  · intro t h
    exact fuzzyStep_get_self_some string_similarity tgts thr (m, u) src t h
  · intro h
    exact fuzzyStep_get_self_none string_similarity tgts thr (m, u) src h
  · intro srcs src₀ hmem hget hlow
    have hm : src₀ ∈ unmappedSources srcs tgts :=
      List.mem_filter.2 ⟨hmem, by simp [hget]⟩
    exact fuzzy_fold_get_none string_similarity tgts thr
      (unmappedSources srcs tgts) (exactPass srcs tgts) src₀ hm hlow

/-- Witness for C2 on a concrete run of the fuzzy step: `abc` against the sole
target `ab` at threshold `1/2` is bound, with score `4/5` above the
threshold. -/
theorem auto_map_fuzzy_pass_spec_witness :
    ("ab" : String) ∉ ([] : List String) ∧ string_similarity "abc" "ab" > 1 / 2 ∧
      ∃ l₁ l₂, ["ab"] = l₁ ++ "ab" :: l₂ ∧
        (∀ x ∈ l₁, x ∉ ([] : List String) →
          string_similarity "abc" x < string_similarity "abc" "ab") ∧
        (∀ x ∈ l₂, x ∉ ([] : List String) →
          string_similarity "abc" x ≤ string_similarity "abc" "ab") :=
  (auto_map_fuzzy_pass_spec ["ab"] (1 / 2) [] [] "abc").1 "ab"
    (by with_unfolding_all decide)

/-! ## C3 -/

/-- C3: exact matches always win over fuzzy matches.  First conjunct: when a
source column is processed by the exact pass and some target column with the
same lowercased name is still unclaimed, the first such target (in
target-column order) is bound and claimed.  Second conjunct: a binding made by
the exact pass is the binding of the final mapping — the fuzzy pass never
rebinds that source column. -/
theorem auto_map_exact_pass_first (tgts : List String) :
    (∀ (m : Dict) (u : List String) (src t : String) (l₁ l₂ : List String),
       tgts = l₁ ++ t :: l₂ → strLower src = strLower t → t ∉ u →
       (∀ x ∈ l₁, ¬(strLower src = strLower x ∧ x ∉ u)) →
       exactStep tgts (m, u) src = (dictInsert m src (some t), t :: u))
    ∧ (∀ (srcs : List String) (thr : ℚ) (src t : String),
       dictGet (exactPass srcs tgts).1 src = some (some t) →
       dictGet (auto_map_columns srcs tgts thr) src = some (some t)) := by
  constructor
  · intro m u src t l₁ l₂ hsplit hmatch hun hfail
    have hfind : tgts.find? (fun x => decide (strLower src = strLower x ∧ x ∉ u)) = some t := by
      rw [hsplit]
      refine find?_of_split l₁ t l₂ _ (by simp [hmatch, hun]) ?_
      intro x hx
      simpa using hfail x hx
    have hstep : exactStep tgts (m, u) src =
        match tgts.find? (fun x => decide (strLower src = strLower x ∧ x ∉ u)) with
        | some t => (dictInsert m src (some t), t :: u)
        | none => (m, u) := rfl
    rw [hstep, hfind]
  · intro srcs thr src t h
    have hnm : src ∉ unmappedSources srcs tgts := by
      intro hmem
      have := (List.mem_filter.1 hmem).2
      rw [h] at this
      simp at this
    have := fuzzy_fold_get_not_mem string_similarity tgts thr
      (unmappedSources srcs tgts) (exactPass srcs tgts) src hnm
    calc dictGet (auto_map_columns srcs tgts thr) src
        = dictGet (exactPass srcs tgts).1 src := this
      _ = some (some t) := h

/-- Witness for C3 at a concrete input: source `a`, target `A`; the exact
step binds the case-insensitive match, and the final mapping keeps it. -/
theorem auto_map_exact_pass_first_witness :
    exactStep ["A"] (([] : Dict), ([] : List String)) "a"
        = (dictInsert [] "a" (some "A"), ["A"]) ∧
      dictGet (auto_map_columns ["a"] ["A"] (4 / 5)) "a" = some (some "A") :=
  ⟨(auto_map_exact_pass_first ["A"]).1 [] [] "a" "A" [] [] rfl (by decide) (by decide)
      (by simp),
    (auto_map_exact_pass_first ["A"]).2 ["a"] (4 / 5) "a" "A"
      (by with_unfolding_all decide)⟩

/-! ## C5 -/

/-- C5 counterexample: duplicate names are not distinct positional entries.
With sources `[a, a]` and targets `[a, A]` the returned mapping has a single
entry (the dict key `a` is overwritten, ending at `A`), not one entry per
source occurrence; and with sources `[x, X]` and targets `[x, x]` the second
occurrence of the duplicated target name `x` cannot be claimed — `X` maps to
null. -/
theorem auto_map_columns_duplicates_collapse :
    (auto_map_columns ["a", "a"] ["a", "A"] (4 / 5)).length = 1 ∧
      dictGet (auto_map_columns ["x", "X"] ["x", "x"] (4 / 5)) "X" = some none := by
  constructor
  · with_unfolding_all decide
  · with_unfolding_all decide

theorem exactStep_keys_sub (tgts : List String) (st : Dict × List String) (src s : String) :
    s ∈ dictKeys (exactStep tgts st src).1 → s ∈ dictKeys st.1 ∨ s = src := by
  unfold exactStep
  cases hf : tgts.find? (fun t => decide (strLower src = strLower t ∧ t ∉ st.2)) with
  | none => exact Or.inl
  | some t =>
    intro h
    exact (mem_dictKeys_insert st.1 src (some t) s).1 h

theorem exact_fold_keys_sub (tgts : List String) :
    ∀ (l : List String) (st : Dict × List String) (s : String),
      s ∈ dictKeys ((l.foldl (exactStep tgts) st).1) → s ∈ dictKeys st.1 ∨ s ∈ l
  | [], _, _, h => Or.inl h
  | a :: l, st, s, h => by
    rcases exact_fold_keys_sub tgts l (exactStep tgts st a) s
        (by rwa [List.foldl_cons] at h) with h' | h'
    · rcases exactStep_keys_sub tgts st a s h' with h'' | rfl
      · exact Or.inl h''
      · exact Or.inr (List.mem_cons_self _ _)
    · exact Or.inr (List.mem_cons_of_mem a h')

theorem fuzzyStep_keys (sim : String → String → ℚ) (tgts : List String) (thr : ℚ)
    (st : Dict × List String) (src s : String) :
    s ∈ dictKeys (fuzzyStep sim tgts thr st src).1 ↔ s ∈ dictKeys st.1 ∨ s = src := by
  unfold fuzzyStep
  rcases hscan : fuzzyScan sim src st.2 tgts (none, thr) with ⟨b, sc⟩
  cases b with
  | none => simpa using mem_dictKeys_insert st.1 src none s
  | some t =>
    by_cases he : t = ""
    · simpa [he] using mem_dictKeys_insert st.1 src none s
    · simpa [he] using mem_dictKeys_insert st.1 src (some t) s

theorem fuzzy_fold_keys (sim : String → String → ℚ) (tgts : List String) (thr : ℚ) :
    ∀ (l : List String) (st : Dict × List String) (s : String),
      s ∈ dictKeys ((l.foldl (fuzzyStep sim tgts thr) st).1) ↔ s ∈ dictKeys st.1 ∨ s ∈ l
  | [], st, s => by simp
  | a :: l, st, s => by
    rw [List.foldl_cons, fuzzy_fold_keys sim tgts thr l _ s,
      fuzzyStep_keys sim tgts thr st a s]
    simp [List.mem_cons]
    tauto

theorem exactStep_keys_nodup (tgts : List String) (st : Dict × List String) (src : String)
    (h : (dictKeys st.1).Nodup) : (dictKeys (exactStep tgts st src).1).Nodup := by
  unfold exactStep
  cases tgts.find? (fun t => decide (strLower src = strLower t ∧ t ∉ st.2)) with
  | none => exact h
  | some t => exact nodup_dictKeys_insert st.1 src (some t) h

theorem fuzzyStep_keys_nodup (sim : String → String → ℚ) (tgts : List String) (thr : ℚ)
    (st : Dict × List String) (src : String)
    (h : (dictKeys st.1).Nodup) : (dictKeys (fuzzyStep sim tgts thr st src).1).Nodup := by
  unfold fuzzyStep
  rcases fuzzyScan sim src st.2 tgts (none, thr) with ⟨b, sc⟩
  cases b with
  | none => exact nodup_dictKeys_insert st.1 src none h
  | some t =>
    by_cases he : t = ""
    · simpa [he] using nodup_dictKeys_insert st.1 src none h
    · simpa [he] using nodup_dictKeys_insert st.1 src (some t) h

theorem foldl_keys_nodup {step : Dict × List String → String → Dict × List String}
    (hstep : ∀ st a, (dictKeys st.1).Nodup → (dictKeys (step st a).1).Nodup) :
    ∀ (l : List String) (st : Dict × List String),
      (dictKeys st.1).Nodup → (dictKeys ((l.foldl step st).1)).Nodup
  | [], _, h => h
  | a :: l, st, h => foldl_keys_nodup hstep l (step st a) (hstep st a h)

/-- C5 amended: duplicate column names collapse by name rather than acting as
distinct positional entries — the returned mapping is a name-keyed dictionary
with exactly one entry per distinct source column name (no key repeats, and a
name is a key iff it occurs among the source columns); symmetrically a
duplicated target name can be claimed at most once, since claimed targets are
tracked by name. -/
theorem auto_map_columns_one_entry_per_name (srcs tgts : List String) (thr : ℚ) :
    (dictKeys (auto_map_columns srcs tgts thr)).Nodup ∧
      ∀ s, s ∈ dictKeys (auto_map_columns srcs tgts thr) ↔ s ∈ srcs := by
  constructor
  · exact foldl_keys_nodup (fuzzyStep_keys_nodup string_similarity tgts thr) _ _
      (foldl_keys_nodup (exactStep_keys_nodup tgts) srcs ([], []) (by simp [dictKeys]))
  · intro s
    have hrw : auto_map_columns srcs tgts thr
        = ((unmappedSources srcs tgts).foldl (fuzzyStep string_similarity tgts thr)
            (exactPass srcs tgts)).1 := rfl
    rw [hrw, fuzzy_fold_keys]
    constructor
    · rintro (h | h)
      · rcases exact_fold_keys_sub tgts srcs ([], []) s h with h' | h'
        · simp [dictKeys] at h'
        · exact h'
      · exact (List.mem_filter.1 h).1
    · intro hs
      by_cases hget : dictGet (exactPass srcs tgts).1 s = none
      · exact Or.inr (List.mem_filter.2 ⟨hs, by simp [hget]⟩)
      · refine Or.inl ?_
        by_contra hnot
        exact hget ((dictGet_eq_none_iff _ s).2 hnot)

/-! ## C9 and C4 -/

theorem str_beq_symm (x y : String) : (x == y) = (y == x) := by
  by_cases h : x = y
  · simp [h]
  · simp [h, Ne.symm h]

theorem are_dtypes_compatible_eq (x y : String) :
    are_dtypes_compatible x y =
      (type_groups.any (fun g => hasAliasIn g (strLower x) && hasAliasIn g (strLower y))
       || ((isSubstring "int" (strLower x) || isSubstring "float" (strLower x))
            && (isSubstring "int" (strLower y) || isSubstring "float" (strLower y)))
       || (hasAliasIn string_aliases (strLower x) || hasAliasIn string_aliases (strLower y))
       || (strLower x == strLower y)) := rfl

theorem are_dtypes_compatible_comm (a b : String) :
    are_dtypes_compatible a b = are_dtypes_compatible b a := by
  rw [are_dtypes_compatible_eq, are_dtypes_compatible_eq, Bool.eq_iff_iff]
  simp only [Bool.or_eq_true, Bool.and_eq_true, List.any_eq_true, beq_iff_eq, or_assoc]
  constructor
  · rintro (h | h | h | h | h)
    · obtain ⟨g, hg, h1, h2⟩ := h
      exact Or.inl ⟨g, hg, h2, h1⟩
    · obtain ⟨h1, h2⟩ := h
      exact Or.inr (Or.inl ⟨h2, h1⟩)
    · exact Or.inr (Or.inr (Or.inr (Or.inl h)))
    · exact Or.inr (Or.inr (Or.inl h))
    · exact Or.inr (Or.inr (Or.inr (Or.inr h.symm)))
  · rintro (h | h | h | h | h)
    · obtain ⟨g, hg, h1, h2⟩ := h
      exact Or.inl ⟨g, hg, h2, h1⟩
    · obtain ⟨h1, h2⟩ := h
      exact Or.inr (Or.inl ⟨h2, h1⟩)
    · exact Or.inr (Or.inr (Or.inr (Or.inl h)))
    · exact Or.inr (Or.inr (Or.inl h))
    · exact Or.inr (Or.inr (Or.inr (Or.inr h.symm)))

/-- C9: `are_dtypes_compatible` is symmetric — every one of its four tests
(shared group, int/float special case, string absorption, raw equality) is
invariant under swapping the two dtype arguments. -/
theorem are_dtypes_compatible_symm (a b : String) :
    are_dtypes_compatible a b = are_dtypes_compatible b a :=
  are_dtypes_compatible_comm a b

/-- C4 counterexample: `foo` contains no alias of any known group, so by the
claim the pair (`foo`, `int64`) ought to be compatible (unknown treated as
string, string absorbs anything) — but the code rules it incompatible, because
the string-absorption test looks for a string-group alias, which an unknown
type does not contain. -/
theorem are_dtypes_compatible_unknown_not_string :
    noAliasAtAll "foo" = true ∧ are_dtypes_compatible "foo" "int64" = false := by
  constructor
  · decide
  · decide

theorem adc_unknown_left (d1 d2 : String) (h : noAliasAtAll d1 = true) :
    are_dtypes_compatible d1 d2 =
      (hasAliasIn string_aliases (strLower d1) || hasAliasIn string_aliases (strLower d2)
        || (strLower d1 == strLower d2)) := by
  have hgroups : ∀ g ∈ type_groups, hasAliasIn g (strLower d1) = false := by
    have h' : (type_groups.any fun g => hasAliasIn g (strLower d1)) = false := by
      simpa [noAliasAtAll] using h
    intro g hg
    rw [Bool.eq_false_iff]
    intro hh
    have ht : (type_groups.any fun g => hasAliasIn g (strLower d1)) = true :=
      List.any_eq_true.2 ⟨g, hg, hh⟩
    rw [h'] at ht
    exact Bool.false_ne_true ht
  have hnum : hasAliasIn numeric_aliases (strLower d1) = false :=
    hgroups numeric_aliases (by simp [type_groups])
  have hstr : hasAliasIn string_aliases (strLower d1) = false :=
    hgroups string_aliases (by simp [type_groups])
  have hint : isSubstring "int" (strLower d1) = false := by
    rw [Bool.eq_false_iff]
    intro hh
    have ht : hasAliasIn numeric_aliases (strLower d1) = true :=
      List.any_eq_true.2 ⟨"int", by simp [numeric_aliases], hh⟩
    rw [hnum] at ht
    exact Bool.false_ne_true ht
  have hflt : isSubstring "float" (strLower d1) = false := by
    rw [Bool.eq_false_iff]
    intro hh
    have ht : hasAliasIn numeric_aliases (strLower d1) = true :=
      List.any_eq_true.2 ⟨"float", by simp [numeric_aliases], hh⟩
    rw [hnum] at ht
    exact Bool.false_ne_true ht
  have hany : (type_groups.any fun g =>
      hasAliasIn g (strLower d1) && hasAliasIn g (strLower d2)) = false := by
    rw [Bool.eq_false_iff]
    intro hT
    rcases List.any_eq_true.1 hT with ⟨g, hg, hgt⟩
    rw [Bool.and_eq_true] at hgt
    rw [hgroups g hg] at hgt
    exact Bool.false_ne_true hgt.1
  rw [are_dtypes_compatible_eq, hany, hint, hflt, hstr]
  simp

/-- C4 amended: if at least one side contains no alias of any known group,
`are_dtypes_compatible` returns true exactly when the other side contains a
string-group alias or the two lowercased raw type names are equal; the
alias-free ("unknown") side is not itself classified as string, so such a pair
is not automatically compatible. -/
theorem are_dtypes_compatible_of_unknown (d1 d2 : String)
    (h : noAliasAtAll d1 = true ∨ noAliasAtAll d2 = true) :
    are_dtypes_compatible d1 d2 =
      (hasAliasIn string_aliases (strLower d1) || hasAliasIn string_aliases (strLower d2)
        || (strLower d1 == strLower d2)) := by
  rcases h with h | h
  · exact adc_unknown_left d1 d2 h
  · rw [are_dtypes_compatible_comm, adc_unknown_left d2 d1 h,
      Bool.or_comm (hasAliasIn string_aliases (strLower d2))
        (hasAliasIn string_aliases (strLower d1)),
      str_beq_symm (strLower d2) (strLower d1)]

/-- Witness for C4's amended statement at a concrete unknown pair. -/
theorem are_dtypes_compatible_of_unknown_witness :
    are_dtypes_compatible "foo" "bar" =
      (hasAliasIn string_aliases (strLower "foo") || hasAliasIn string_aliases (strLower "bar")
        || (strLower "foo" == strLower "bar")) :=
  are_dtypes_compatible_of_unknown "foo" "bar" (Or.inl (by decide))

/-! ## C6 -/

theorem hasDup_iff_not_nodup : ∀ (l : List (List Cell)), hasDup l = true ↔ ¬ l.Nodup
  | [] => by simp [hasDup]
  | x :: xs => by
    simp [hasDup, hasDup_iff_not_nodup xs, List.nodup_cons]
    tauto

theorem findNullCol_ok_none (df : DataFrame) : ∀ (cols : List String),
    (∀ c ∈ cols, (getColumn df c).isSome = true ∧ Cell.null ∉ colValsD df c) →
    findNullCol df cols = .ok none
  | [], _ => rfl
  | c :: cs, h => by
    obtain ⟨hsome, hnull⟩ := h c (List.mem_cons_self c cs)
    obtain ⟨col, hcol⟩ := Option.isSome_iff_exists.1 hsome
    have hn : Cell.null ∉ col.values := by
      simpa [colValsD, hcol] using hnull
    simp only [findNullCol, hcol, if_neg hn]
    exact findNullCol_ok_none df cs (fun c' hc' => h c' (List.mem_cons_of_mem c hc'))

/-- C6: under the claim's hypotheses (a non-empty join set, every join column
mapped, both sides' join columns present and null-free), `validate_join_columns`
returns the duplicate-combination failure exactly when the per-row tuples of
the selected join columns repeat within either dataset, and returns success
otherwise. -/
theorem validate_join_columns_spec
    (mapping : List (String × String)) (join_columns : List String)
    (source_df target_df : DataFrame)
    (hne : join_columns ≠ [])
    (hmap : ∀ c ∈ join_columns, (lookupStr mapping c).isSome = true)
    (hsrc : ∀ c ∈ join_columns, (getColumn source_df c).isSome = true ∧
      Cell.null ∉ colValsD source_df c)
    (htgt : ∀ c ∈ join_columns,
      (getColumn target_df ((lookupStr mapping c).getD "")).isSome = true ∧
      Cell.null ∉ colValsD target_df ((lookupStr mapping c).getD "")) :
    ((validate_join_columns mapping join_columns source_df target_df
        = .ok (false, "Selected join columns contain duplicate combinations"))
      ↔ ¬((joinTuples source_df join_columns).Nodup ∧
          (joinTuples target_df
            (join_columns.map (fun c => (lookupStr mapping c).getD ""))).Nodup))
    ∧ ((joinTuples source_df join_columns).Nodup →
       (joinTuples target_df
         (join_columns.map (fun c => (lookupStr mapping c).getD ""))).Nodup →
       validate_join_columns mapping join_columns source_df target_df
         = .ok (true, "Join columns validated successfully")) := by
  have hfind : join_columns.find? (fun c => (lookupStr mapping c).isNone) = none := by
    rw [List.find?_eq_none]
    intro x hx
    have := hmap x hx
    cases hl : lookupStr mapping x with
    | none => rw [hl] at this; simp at this
    | some v => simp [hl]
  have htgt' : ∀ c ∈ join_columns.map (fun c => (lookupStr mapping c).getD ""),
      (getColumn target_df c).isSome = true ∧ Cell.null ∉ colValsD target_df c := by
    intro c hc
    rcases List.mem_map.1 hc with ⟨c₀, hc₀, rfl⟩
    exact htgt c₀ hc₀
  have e1 : validate_join_columns mapping join_columns source_df target_df =
      (if hasDup (joinTuples source_df join_columns)
          || hasDup (joinTuples target_df
            (join_columns.map (fun c => (lookupStr mapping c).getD ""))) then
        Except.ok (false, "Selected join columns contain duplicate combinations")
      else Except.ok (true, "Join columns validated successfully")) := by
    simp only [validate_join_columns, if_neg hne, hfind,
      findNullCol_ok_none source_df join_columns hsrc,
      findNullCol_ok_none target_df _ htgt']
  rw [e1]
  constructor
  · constructor
    · intro h hcon
      obtain ⟨hS, hT⟩ := hcon
      have hbS : hasDup (joinTuples source_df join_columns) = false := by
        rw [Bool.eq_false_iff]
        intro hb
        exact (hasDup_iff_not_nodup _).1 hb hS
      have hbT : hasDup (joinTuples target_df
          (join_columns.map (fun c => (lookupStr mapping c).getD ""))) = false := by
        rw [Bool.eq_false_iff]
        intro hb
        exact (hasDup_iff_not_nodup _).1 hb hT
      rw [hbS, hbT] at h
      simp at h
    · intro h
      have hb : hasDup (joinTuples source_df join_columns) = true ∨
          hasDup (joinTuples target_df
            (join_columns.map (fun c => (lookupStr mapping c).getD ""))) = true := by
        by_contra hc
        push_neg at hc
        refine h ⟨?_, ?_⟩
        · by_contra hS
          exact hc.1 ((hasDup_iff_not_nodup _).2 hS)
        · by_contra hT
          exact hc.2 ((hasDup_iff_not_nodup _).2 hT)
      rcases hb with hb | hb
      · simp [hb]
      · simp [hb]
  · intro hS hT
    have hbS : hasDup (joinTuples source_df join_columns) = false := by
      rw [Bool.eq_false_iff]
      intro hb
      exact (hasDup_iff_not_nodup _).1 hb hS
    have hbT : hasDup (joinTuples target_df
        (join_columns.map (fun c => (lookupStr mapping c).getD ""))) = false := by
      rw [Bool.eq_false_iff]
      intro hb
      exact (hasDup_iff_not_nodup _).1 hb hT
    simp [hbS, hbT]

/-- Witness for C6 on concrete frames: unique keys on both sides validate
successfully. -/
theorem validate_join_columns_spec_witness :
    validate_join_columns [("id", "ID")] ["id"]
        ⟨[⟨"id", "int64", [Cell.num 1, Cell.num 2]⟩]⟩
        ⟨[⟨"ID", "int64", [Cell.num 1, Cell.num 3]⟩]⟩
      = .ok (true, "Join columns validated successfully") :=
  (validate_join_columns_spec [("id", "ID")] ["id"]
      ⟨[⟨"id", "int64", [Cell.num 1, Cell.num 2]⟩]⟩
      ⟨[⟨"ID", "int64", [Cell.num 1, Cell.num 3]⟩]⟩
      (by decide) (by decide) (by with_unfolding_all decide)
      (by with_unfolding_all decide)).2
    (by with_unfolding_all decide) (by with_unfolding_all decide)

/-! ## C7 -/

/-- C7 counterexample: with a desired-type mapping covering the source column,
`validate_mapping` succeeds although the pair's declared types are
incompatible — the sample-conversion check replaces the compatibility check. -/
theorem validate_mapping_typemap_skips_compat :
    validate_mapping ⟨[⟨"a", "int64", [Cell.num 1]⟩]⟩
        ⟨[⟨"b", "datetime64[ns]", [Cell.num 1]⟩]⟩
        [("a", some "b")] (some [("a", "int64")])
      = .ok (true, "Mapping validated successfully")
    ∧ are_dtypes_compatible "int64" "datetime64[ns]" = false := by
  constructor
  · with_unfolding_all rfl
  · decide

theorem checkPairs_none_spec (sdf tdf : DataFrame) : ∀ (pairs : List (String × String)),
    (∀ p ∈ pairs, (getColumn sdf p.1).isSome = true) →
    (∀ p ∈ pairs, (getColumn tdf p.2).isSome = true) →
    (∀ p, pairs.find?
        (fun q => !(are_dtypes_compatible (colDtypeD sdf q.1) (colDtypeD tdf q.2))) = some p →
      checkPairs sdf tdf none pairs = .ok (false, incompatible_msg sdf tdf p))
    ∧ (pairs.find?
        (fun q => !(are_dtypes_compatible (colDtypeD sdf q.1) (colDtypeD tdf q.2))) = none →
      checkPairs sdf tdf none pairs = .ok (true, "Mapping validated successfully"))
  | [], _, _ => ⟨fun p h => by simp [List.find?] at h, fun _ => rfl⟩
  | (src, tgt) :: rest, hs, ht => by
    obtain ⟨scol, hscol⟩ := Option.isSome_iff_exists.1 (hs (src, tgt) (List.mem_cons_self _ _))
    obtain ⟨tcol, htcol⟩ := Option.isSome_iff_exists.1 (ht (src, tgt) (List.mem_cons_self _ _))
    have hd1 : colDtypeD sdf src = scol.dtype := by simp [colDtypeD, hscol]
    have hd2 : colDtypeD tdf tgt = tcol.dtype := by simp [colDtypeD, htcol]
    have ih := checkPairs_none_spec sdf tdf rest
      (fun p hp => hs p (List.mem_cons_of_mem _ hp))
      (fun p hp => ht p (List.mem_cons_of_mem _ hp))
    by_cases hc : are_dtypes_compatible scol.dtype tcol.dtype = true
    · have hpred : (fun q : String × String =>
          !(are_dtypes_compatible (colDtypeD sdf q.1) (colDtypeD tdf q.2))) (src, tgt)
            = false := by
        simp [hd1, hd2, hc]
      constructor
      · intro p hp
        rw [find?_cons_neg (fun q : String × String =>
            !(are_dtypes_compatible (colDtypeD sdf q.1) (colDtypeD tdf q.2))) (src, tgt) rest hpred] at hp
        have := ih.1 p hp
        simpa [checkPairs, hscol, htcol, hc] using this
      · intro hp
        rw [find?_cons_neg (fun q : String × String =>
            !(are_dtypes_compatible (colDtypeD sdf q.1) (colDtypeD tdf q.2))) (src, tgt) rest hpred] at hp
        have := ih.2 hp
        simpa [checkPairs, hscol, htcol, hc] using this
    · have hcf : are_dtypes_compatible scol.dtype tcol.dtype = false :=
        Bool.eq_false_iff.2 hc
      have hpred : (fun q : String × String =>
          !(are_dtypes_compatible (colDtypeD sdf q.1) (colDtypeD tdf q.2))) (src, tgt)
            = true := by
        simp [hd1, hd2, hcf]
      constructor
      · intro p hp
        rw [find?_cons_pos (fun q : String × String =>
            !(are_dtypes_compatible (colDtypeD sdf q.1) (colDtypeD tdf q.2))) (src, tgt) rest hpred] at hp
        obtain rfl : (src, tgt) = p := Option.some.inj hp
        simp [checkPairs, hscol, htcol, hcf, incompatible_msg, hd1, hd2]
      · intro hp
        rw [find?_cons_pos (fun q : String × String =>
            !(are_dtypes_compatible (colDtypeD sdf q.1) (colDtypeD tdf q.2))) (src, tgt) rest hpred] at hp
        simp at hp

/-- C7 amended: `validate_mapping` consults the type-compatibility check only
for surviving pairs whose source column is not covered by a supplied
type_mapping.  In particular, with no type_mapping at all (and all columns
present), the first pair with incompatible declared dtypes produces the
incompatible-types failure, and if every pair is compatible the mapping
validates; but (per the counterexample) a pair covered by a type_mapping entry
bypasses the compatibility check entirely. -/
theorem validate_mapping_no_typemap_checks_compat (sdf tdf : DataFrame) (mapping : Dict)
    (hne : survivingPairs mapping ≠ [])
    (hs : ∀ p ∈ survivingPairs mapping, (getColumn sdf p.1).isSome = true)
    (ht : ∀ p ∈ survivingPairs mapping, (getColumn tdf p.2).isSome = true) :
    (∀ p, (survivingPairs mapping).find?
        (fun q => !(are_dtypes_compatible (colDtypeD sdf q.1) (colDtypeD tdf q.2))) = some p →
      validate_mapping sdf tdf mapping none = .ok (false, incompatible_msg sdf tdf p))
    ∧ ((survivingPairs mapping).find?
        (fun q => !(are_dtypes_compatible (colDtypeD sdf q.1) (colDtypeD tdf q.2))) = none →
      validate_mapping sdf tdf mapping none = .ok (true, "Mapping validated successfully")) := by
  have hmiss : ((survivingPairs mapping).map (·.2)).filter
      (fun c => (getColumn tdf c).isNone) = [] := by
    rw [List.filter_eq_nil_iff]
    intro c hc
    rcases List.mem_map.1 hc with ⟨p, hp, rfl⟩
    have := ht p hp
    cases hg : getColumn tdf p.2 with
    | none => rw [hg] at this; simp at this
    | some col => simp [hg]
  have e : validate_mapping sdf tdf mapping none
      = checkPairs sdf tdf none (survivingPairs mapping) := by
    simp only [validate_mapping, if_neg hne, hmiss, if_pos]
  rw [e]
  exact checkPairs_none_spec sdf tdf (survivingPairs mapping) hs ht

/-- Witness for C7's amended statement: without a type_mapping and with
compatible dtypes throughout, validation succeeds. -/
theorem validate_mapping_no_typemap_checks_compat_witness :
    validate_mapping ⟨[⟨"a", "int64", [Cell.num 1]⟩]⟩ ⟨[⟨"b", "int64", [Cell.num 2]⟩]⟩
        [("a", some "b")] none = .ok (true, "Mapping validated successfully") :=
  (validate_mapping_no_typemap_checks_compat
      ⟨[⟨"a", "int64", [Cell.num 1]⟩]⟩ ⟨[⟨"b", "int64", [Cell.num 2]⟩]⟩
      [("a", some "b")] (by decide) (by decide) (by decide)).2 (by decide)

/-! ## C10 -/

theorem find?_map_name (c : String) (n : Nat) : ∀ (l : List DFColumn),
    List.find? (fun col => col.name == c)
        (l.map (fun col => (⟨col.name, col.dtype, col.values.take n⟩ : DFColumn)))
      = (List.find? (fun col => col.name == c) l).map
          (fun col => (⟨col.name, col.dtype, col.values.take n⟩ : DFColumn))
  | [] => rfl
  | col :: l => by
    by_cases h : (col.name == c) = true
    · rw [List.map_cons,
        find?_cons_pos (fun col : DFColumn => col.name == c)
          (⟨col.name, col.dtype, col.values.take n⟩ : DFColumn)
          (l.map (fun col => (⟨col.name, col.dtype, col.values.take n⟩ : DFColumn))) h,
        find?_cons_pos (fun col : DFColumn => col.name == c) col l h]
      rfl
    · have hf : (col.name == c) = false := by simpa using h
      rw [List.map_cons,
        find?_cons_neg (fun col : DFColumn => col.name == c)
          (⟨col.name, col.dtype, col.values.take n⟩ : DFColumn)
          (l.map (fun col => (⟨col.name, col.dtype, col.values.take n⟩ : DFColumn))) hf,
        find?_cons_neg (fun col : DFColumn => col.name == c) col l hf]
      exact find?_map_name c n l

theorem getColumn_takeRows (n : Nat) (df : DataFrame) (c : String) :
    getColumn (takeRows n df) c
      = (getColumn df c).map (fun col => ⟨col.name, col.dtype, col.values.take n⟩) := by
  unfold getColumn takeRows
  exact find?_map_name c n df.cols

theorem checkPairs_takeRows (sdf tdf : DataFrame)
    (tm : Option (List (String × String))) : ∀ (pairs : List (String × String)),
    checkPairs (takeRows 100 sdf) tdf tm pairs = checkPairs sdf tdf tm pairs
  | [] => rfl
  | (src, tgt) :: rest => by
    have hg := getColumn_takeRows 100 sdf src
    cases hcol : getColumn sdf src with
    | none =>
      rw [hcol] at hg
      simp [checkPairs, hg, hcol]
    | some scol =>
      rw [hcol] at hg
      cases htcol : getColumn tdf tgt with
      | none => simp [checkPairs, hg, hcol, htcol]
      | some tcol =>
        cases hb : tm.bind (fun tml => lookupStr tml src) with
        | some desired =>
          have hsample : (scol.values.take 100).take 100 = scol.values.take 100 := by
            simp [List.take_take]
          simp [checkPairs, hg, hcol, htcol, hb, hsample,
            checkPairs_takeRows sdf tdf tm rest]
        | none =>
          simp [checkPairs, hg, hcol, htcol, hb, checkPairs_takeRows sdf tdf tm rest]

theorem validate_mapping_takeRows (sdf tdf : DataFrame) (mapping : Dict)
    (tm : Option (List (String × String))) :
    validate_mapping (takeRows 100 sdf) tdf mapping tm
      = validate_mapping sdf tdf mapping tm := by
  unfold validate_mapping
  by_cases h : survivingPairs mapping = []
  · simp [h]
  · simp only [if_neg h]
    by_cases h2 : ((survivingPairs mapping).map (·.2)).filter
        (fun c => (getColumn tdf c).isNone) = []
    · simp only [h2, if_pos]
      exact checkPairs_takeRows sdf tdf tm (survivingPairs mapping)
    · simp only [if_neg h2]

/-- C10: the verdict of `validate_mapping` reads only the first 100 values of
each source column (plus the source schema): two source datasets with the same
column names and dtypes whose columns agree on their first 100 values — in
particular two datasets differing only after row 100 of one column — receive
the identical `(ok, reason)` result, whatever the mapping and desired-type
mapping; so a conversion failure first occurring after row 100 cannot fail
validation. -/
theorem validate_mapping_reads_first_100 (sdf₁ sdf₂ tdf : DataFrame) (mapping : Dict)
    (tm : Option (List (String × String)))
    (h : takeRows 100 sdf₁ = takeRows 100 sdf₂) :
    validate_mapping sdf₁ tdf mapping tm = validate_mapping sdf₂ tdf mapping tm := by
  calc validate_mapping sdf₁ tdf mapping tm
      = validate_mapping (takeRows 100 sdf₁) tdf mapping tm :=
        (validate_mapping_takeRows sdf₁ tdf mapping tm).symm
    _ = validate_mapping (takeRows 100 sdf₂) tdf mapping tm := by rw [h]
    _ = validate_mapping sdf₂ tdf mapping tm :=
        validate_mapping_takeRows sdf₂ tdf mapping tm

/-- Witness for C10: two 101-row source columns agreeing on the first 100
values — one ending in a numeric cell, the other in a non-numeric string that
would fail `int64` conversion — validate identically. -/
theorem validate_mapping_reads_first_100_witness :
    validate_mapping ⟨[⟨"a", "int64", List.replicate 100 (Cell.num 1) ++ [Cell.num 2]⟩]⟩
        ⟨[⟨"b", "int64", [Cell.num 1]⟩]⟩ [("a", some "b")] (some [("a", "int64")])
      = validate_mapping ⟨[⟨"a", "int64", List.replicate 100 (Cell.num 1) ++ [Cell.str "x"]⟩]⟩
        ⟨[⟨"b", "int64", [Cell.num 1]⟩]⟩ [("a", some "b")] (some [("a", "int64")]) :=
  validate_mapping_reads_first_100
    ⟨[⟨"a", "int64", List.replicate 100 (Cell.num 1) ++ [Cell.num 2]⟩]⟩
    ⟨[⟨"a", "int64", List.replicate 100 (Cell.num 1) ++ [Cell.str "x"]⟩]⟩
    ⟨[⟨"b", "int64", [Cell.num 1]⟩]⟩ [("a", some "b")] (some [("a", "int64")])
    (by with_unfolding_all decide)

/-! ## C8 -/

/-- C8 counterexample: a source sum of `5e-9` against a target sum of exactly
zero is reported PASS by the code (`np.isclose`: `|s - t| <= 1e-8 + 1e-5 |t|`),
while the spec's rule (absolute fallback `1e-9` against exactly zero) says
FAIL. -/
theorem aggregation_check_not_spec_tolerance :
    generate_aggregation_check ⟨[⟨"a", "float64", [Cell.num (1 / 200000000)]⟩]⟩
        ⟨[⟨"a", "float64", [Cell.num 0]⟩]⟩ [("a", "a")]
      = [⟨"a", "a", 1 / 200000000, 0, "PASS"⟩]
    ∧ spec_aggregate_pass (1 / 200000000) 0 = false := by
  constructor
  · have h1 : colSum ⟨[⟨"a", "float64", [Cell.num (1 / 200000000)]⟩]⟩ "a"
        = 1 / 200000000 := by
      simp [colSum, colValsD, getColumn, List.find?, cellNumD]
    have h2 : colSum ⟨[⟨"a", "float64", [Cell.num 0]⟩]⟩ "a" = 0 := by
      simp [colSum, colValsD, getColumn, List.find?, cellNumD]
    have h3 : np_isclose (1 / 200000000 : ℚ) 0 = true := by
      unfold np_isclose
      rw [decide_eq_true_eq, sub_zero, abs_zero,
        abs_of_pos (by norm_num : (0 : ℚ) < 1 / 200000000)]
      norm_num
    simp [generate_aggregation_check, List.filter, dtypeIsNumeric, numeric_dtypes,
      lookupStr, h1, h2, h3, -one_div]
  · unfold spec_aggregate_pass
    rw [if_pos (Or.inr rfl), decide_eq_false_iff_not, sub_zero,
      abs_of_pos (by norm_num : (0 : ℚ) < 1 / 200000000)]
    norm_num

/-- C8 amended: every row of the aggregation check sums the mapped column over
all rows on each side independently, and reports PASS exactly when
`|sourceSum - targetSum| <= 1e-8 + 1e-5 * |targetSum|` (numpy `isclose` with
its default absolute tolerance, relative part measured against the target
sum), FAIL otherwise; the spec's worked examples (`1000000.00` vs
`1000000.005` PASS, vs `1000100.00` FAIL) hold under this rule. -/
theorem aggregation_check_pass_iff (sdf tdf : DataFrame)
    (mapping : List (String × String)) (r : AggRow)
    (h : r ∈ generate_aggregation_check sdf tdf mapping) :
    (r.result = "PASS" ↔
      |r.sourceSum - r.targetSum| ≤ 1 / 100000000 + 1 / 100000 * |r.targetSum|)
    ∧ r.sourceSum = colSum sdf r.sourceColumn
    ∧ r.targetSum = colSum tdf r.targetColumn := by
  unfold generate_aggregation_check at h
  rcases List.mem_filterMap.1 h with ⟨c, _, heq⟩
  cases hl : lookupStr mapping c.name with
  | none => rw [hl] at heq; simp at heq
  | some tgt =>
    rw [hl] at heq
    obtain rfl : (⟨c.name, tgt, colSum sdf c.name, colSum tdf tgt,
        if np_isclose (colSum sdf c.name) (colSum tdf tgt) then "PASS" else "FAIL"⟩ : AggRow)
          = r := by simpa using heq
    refine ⟨?_, rfl, rfl⟩
    show (if np_isclose (colSum sdf c.name) (colSum tdf tgt) then "PASS" else "FAIL") = "PASS"
      ↔ |colSum sdf c.name - colSum tdf tgt| ≤ 1 / 100000000 + 1 / 100000 * |colSum tdf tgt|
    by_cases hnp : np_isclose (colSum sdf c.name) (colSum tdf tgt) = true
    · rw [if_pos hnp]
      exact ⟨fun _ => of_decide_eq_true hnp, fun _ => rfl⟩
    · rw [if_neg hnp]
      constructor
      · intro hfp
        exact absurd hfp (by decide)
      · intro hle
        exact absurd
          (decide_eq_true hle : np_isclose (colSum sdf c.name) (colSum tdf tgt) = true) hnp

/-- Witness for C8's amended statement at the spec's two worked examples. -/
theorem aggregation_check_pass_iff_witness :
    (((⟨"a", "A", 1000000, 1000000 + 5 / 1000, "PASS"⟩ : AggRow).result = "PASS" ↔
        |(⟨"a", "A", 1000000, 1000000 + 5 / 1000, "PASS"⟩ : AggRow).sourceSum
            - (⟨"a", "A", 1000000, 1000000 + 5 / 1000, "PASS"⟩ : AggRow).targetSum|
          ≤ 1 / 100000000 + 1 / 100000 *
            |(⟨"a", "A", 1000000, 1000000 + 5 / 1000, "PASS"⟩ : AggRow).targetSum|)
      ∧ (⟨"a", "A", 1000000, 1000000 + 5 / 1000, "PASS"⟩ : AggRow).sourceSum
          = colSum ⟨[⟨"a", "float64", [Cell.num 1000000]⟩,
              ⟨"b", "float64", [Cell.num 1000000]⟩]⟩
            (⟨"a", "A", 1000000, 1000000 + 5 / 1000, "PASS"⟩ : AggRow).sourceColumn
      ∧ (⟨"a", "A", 1000000, 1000000 + 5 / 1000, "PASS"⟩ : AggRow).targetSum
          = colSum ⟨[⟨"A", "float64", [Cell.num (1000000 + 5 / 1000)]⟩,
              ⟨"B", "float64", [Cell.num 1000100]⟩]⟩
            (⟨"a", "A", 1000000, 1000000 + 5 / 1000, "PASS"⟩ : AggRow).targetColumn)
    ∧ ((⟨"b", "B", 1000000, 1000100, "FAIL"⟩ : AggRow).result = "PASS" ↔
        |(⟨"b", "B", 1000000, 1000100, "FAIL"⟩ : AggRow).sourceSum
            - (⟨"b", "B", 1000000, 1000100, "FAIL"⟩ : AggRow).targetSum|
          ≤ 1 / 100000000 + 1 / 100000 *
            |(⟨"b", "B", 1000000, 1000100, "FAIL"⟩ : AggRow).targetSum|) :=
  by
  have ha : colSum ⟨[⟨"a", "float64", [Cell.num 1000000]⟩,
      ⟨"b", "float64", [Cell.num 1000000]⟩]⟩ "a" = 1000000 := by
    simp [colSum, colValsD, getColumn, List.find?, cellNumD]
  have hb : colSum ⟨[⟨"a", "float64", [Cell.num 1000000]⟩,
      ⟨"b", "float64", [Cell.num 1000000]⟩]⟩ "b" = 1000000 := by
    simp [colSum, colValsD, getColumn, List.find?, cellNumD]
  have hA : colSum ⟨[⟨"A", "float64", [Cell.num (1000000 + 5 / 1000)]⟩,
      ⟨"B", "float64", [Cell.num 1000100]⟩]⟩ "A" = 1000000 + 5 / 1000 := by
    simp [colSum, colValsD, getColumn, List.find?, cellNumD]
  have hB : colSum ⟨[⟨"A", "float64", [Cell.num (1000000 + 5 / 1000)]⟩,
      ⟨"B", "float64", [Cell.num 1000100]⟩]⟩ "B" = 1000100 := by
    simp [colSum, colValsD, getColumn, List.find?, cellNumD]
  have hp1 : np_isclose (1000000 : ℚ) (1000000 + 5 / 1000) = true := by
    unfold np_isclose
    rw [decide_eq_true_eq,
      abs_of_pos (show (0 : ℚ) < 1000000 + 5 / 1000 by norm_num), abs_sub_comm,
      abs_of_pos (show (0 : ℚ) < 1000000 + 5 / 1000 - 1000000 by norm_num)]
    norm_num
  have hp2 : np_isclose (1000000 : ℚ) 1000100 = false := by
    unfold np_isclose
    rw [decide_eq_false_iff_not,
      abs_of_pos (show (0 : ℚ) < 1000100 by norm_num), abs_sub_comm,
      abs_of_pos (show (0 : ℚ) < 1000100 - 1000000 by norm_num)]
    norm_num
  have hgen : generate_aggregation_check
      ⟨[⟨"a", "float64", [Cell.num 1000000]⟩, ⟨"b", "float64", [Cell.num 1000000]⟩]⟩
      ⟨[⟨"A", "float64", [Cell.num (1000000 + 5 / 1000)]⟩,
        ⟨"B", "float64", [Cell.num 1000100]⟩]⟩
      [("a", "A"), ("b", "B")]
      = [⟨"a", "A", 1000000, 1000000 + 5 / 1000, "PASS"⟩,
         ⟨"b", "B", 1000000, 1000100, "FAIL"⟩] := by
    simp [generate_aggregation_check, List.filter, dtypeIsNumeric, numeric_dtypes,
      lookupStr, ha, hb, hA, hB, hp1, hp2, -one_div]
  exact ⟨aggregation_check_pass_iff
      ⟨[⟨"a", "float64", [Cell.num 1000000]⟩, ⟨"b", "float64", [Cell.num 1000000]⟩]⟩
      ⟨[⟨"A", "float64", [Cell.num (1000000 + 5 / 1000)]⟩,
        ⟨"B", "float64", [Cell.num 1000100]⟩]⟩
      [("a", "A"), ("b", "B")] ⟨"a", "A", 1000000, 1000000 + 5 / 1000, "PASS"⟩
      (by rw [hgen]; exact List.mem_cons_self _ _),
    (aggregation_check_pass_iff
      ⟨[⟨"a", "float64", [Cell.num 1000000]⟩, ⟨"b", "float64", [Cell.num 1000000]⟩]⟩
      ⟨[⟨"A", "float64", [Cell.num (1000000 + 5 / 1000)]⟩,
        ⟨"B", "float64", [Cell.num 1000100]⟩]⟩
      [("a", "A"), ("b", "B")] ⟨"b", "B", 1000000, 1000100, "FAIL"⟩
      (by rw [hgen]; exact List.mem_cons_of_mem _ (List.mem_cons_self _ _))).1⟩

end CompFw
